import Mathlib

/-!
Shallow embedding of the Trading 212 MCP server's HTTP client core
(`trading212_mcp_server/api/client.py`) and of the analytics aggregation
tools (`trading212_mcp_server/tools/analytics.py`), together with theorems
checking the natural-language specification against it.

Conventions of the embedding:
* Python floats carrying money/time values are modelled as `ℚ`.
* `time.sleep(s)` is modelled by advancing the clock field `now` of the
  client state by `s` and adding `s` to the accumulator `totalWait`.
* Fallible parsing returns `Option`; a raised-and-propagated Python
  exception is an `Except.error` value.
-/

namespace Trading212

/-! ### Python-style string and number helpers -/

/-- The digits of a Python `int(...)` argument: a nonempty run of decimal
digits, folded to a number. Returns `none` when Python would raise
`ValueError`. (Underscore digit separators are not modelled.) -/
def digitsToNat (ds : List Char) : Option Nat :=
  if ds ≠ [] ∧ ds.all (fun c => c.isDigit) then
    some (ds.foldl (fun a c => a * 10 + (c.toNat - 48)) 0)
  else none

/-- Model of Python `int(s)` on a string: strip surrounding whitespace, then
an optional sign followed by a nonempty digit run. -/
def pyIntChars (l : List Char) : Option Int :=
  let t := ((l.dropWhile Char.isWhitespace).reverse.dropWhile Char.isWhitespace).reverse
  match t with
  | '+' :: ds => (digitsToNat ds).map Int.ofNat
  | '-' :: ds => (digitsToNat ds).map (fun n => -(n : Int))
  | ds => (digitsToNat ds).map Int.ofNat

def pyInt (s : String) : Option Int := pyIntChars s.toList

/-- Python `x or d` for a float `x`: `x` when nonzero (truthy), else `d`. -/
def pyOr (x d : ℚ) : ℚ := if x = 0 then d else x

/-- Python `x or d` for an `Optional[float] x`: `d` when `x` is `None` or
`0.0`, else the value of `x`. -/
def optOr (x : Option ℚ) (d : ℚ) : ℚ :=
  match x with
  | none => d
  | some v => if v = 0 then d else v

/-- Python `t or d` for a string `t`: `t` when nonempty (truthy), else `d`. -/
def pyStrOr (t d : String) : String := if t = "" then d else t

/-- `url.split("?")[0]`: the request path stripped of its query string
(the separator is the single character `?`, so this is a `takeWhile`). -/
def endpointKey (url : String) : String :=
  String.mk (url.toList.takeWhile (fun c => c ≠ '?'))

/-- Does `sep` occur at the head of `l`? -/
def leadsWith : List Char → List Char → Bool
  | [], _ => true
  | _ :: _, [] => false
  | a :: as, b :: bs => a = b && leadsWith as bs

/-- Python `s.split(sep)` for a nonempty `sep`, on character lists, written
with explicit fuel (any `fuel > l.length` makes the fuel case unreachable). -/
def splitChars (sep : List Char) : Nat → List Char → List Char → List (List Char)
  | 0, l, acc => [acc.reverse ++ l]
  | fuel + 1, l, acc =>
    match l with
    | [] => [acc.reverse]
    | c :: rest =>
      if leadsWith sep (c :: rest) then
        acc.reverse :: splitChars sep fuel ((c :: rest).drop sep.length) []
      else
        splitChars sep fuel rest (acc ++ [c])

def splitStr (sep s : String) : List String :=
  (splitChars sep.toList (s.toList.length + 1) s.toList []).map String.mk

/-- Floor of a rational, computed by floor division of numerator by
denominator (kernel-reducible, unlike the `FloorRing` field). -/
def ratFloor (q : ℚ) : Int := q.num.fdiv q.den

/-- Round-half-to-even of a rational to an integer, modelling Python 3
`round` (on the exact value). -/
def roundHalfEven (q : ℚ) : Int :=
  let f := ratFloor q
  let r := q - (f : ℚ)
  if r < 1/2 then f
  else if 1/2 < r then f + 1
  else if f % 2 = 0 then f else f + 1

/-- Python `round(x, 2)` on the exact rational value. -/
def round2 (q : ℚ) : ℚ := (roundHalfEven (100 * q) : ℚ) / 100

/-! ### Rate-limit tracker state (`T212Client.__init__`, `_rate_limits`,
`_total_wait`) -/

/-- One entry of `self._rate_limits`: `{"remaining": int, "reset": int}`. -/
structure RateLimitInfo where
  remaining : Int
  reset : Int
deriving DecidableEq

/-- The two rate-limit response headers, each either absent or a raw
header string. -/
structure RespHeaders where
  xRatelimitRemaining : Option String
  xRatelimitReset : Option String
deriving DecidableEq

/-- Mutable client state: the per-endpoint rate-limit map (an
insertion-ordered association list), the cumulative wait accumulator
`_total_wait`, and the current wall clock (`time.time()`). -/
structure ClientState where
  rateLimits : List (String × RateLimitInfo)
  totalWait : ℚ
  now : ℚ
deriving DecidableEq

/-- Dictionary lookup `self._rate_limits.get(endpoint)`. -/
def lookupRL : List (String × RateLimitInfo) → String → Option RateLimitInfo
  | [], _ => none
  | (k', v) :: rest, k => if k' = k then some v else lookupRL rest k

/-- Dictionary assignment `self._rate_limits[endpoint] = v` (keeps the
position of an existing key, appends a new key at the end). -/
def setRL : List (String × RateLimitInfo) → String → RateLimitInfo →
    List (String × RateLimitInfo)
  | [], k, v => [(k, v)]
  | (k', v') :: rest, k, v =>
    if k' = k then (k', v) :: rest else (k', v') :: setRL rest k v

/-- `headers.get(name, default)` followed by Python `int(...)`: an absent
header uses the integer default (and `int` of an `int` succeeds); a present
header string must parse, otherwise the `int` call raises (`none`). -/
def parseHeaderInt (field : Option String) (dflt : Int) : Option Int :=
  match field with
  | none => some dflt
  | some s => pyInt s

/-- `T212Client._update_rate_limit`: build the new entry from the two
headers (`x-ratelimit-remaining` defaulting to 1 when absent,
`x-ratelimit-reset` defaulting to 0) and store it under the endpoint key;
a `ValueError` from either parse aborts the whole assignment and is
swallowed, leaving the map unchanged. -/
def updateRateLimit (url : String) (h : RespHeaders) (st : ClientState) : ClientState :=
  match parseHeaderInt h.xRatelimitRemaining 1, parseHeaderInt h.xRatelimitReset 0 with
  | some rem, some rst =>
    { st with rateLimits := setRL st.rateLimits (endpointKey url) ⟨rem, rst⟩ }
  | _, _ => st

/-- `T212Client._wait_for_rate_limit`: the pre-send throttle. When a tracked
entry for the endpoint key has `remaining ≤ 0` and `reset - now > 0`, sleep
`min(wait + 0.5, 60)` seconds (modelled by advancing `now`) and add the slept
amount to the accumulator; in every other case return the state unchanged. -/
def waitForRateLimit (url : String) (st : ClientState) : ClientState :=
  match lookupRL st.rateLimits (endpointKey url) with
  | none => st
  | some info =>
    if info.remaining ≤ 0 then
      let wait : ℚ := (info.reset : ℚ) - st.now
      if 0 < wait then
        let sleepFor := min (wait + 1/2) 60
        { st with totalWait := st.totalWait + sleepFor, now := st.now + sleepFor }
      else st
    else st

/-! ### The resilient request executor (`T212Client._request`) -/

/-- The transport-level outcome of one physical attempt: a response with a
status code, rate-limit headers, a parsed JSON body (used on success) and a
raw text body (used in error messages), or a connect error, or a timeout. -/
inductive Outcome (β : Type) where
  | response (status : Nat) (headers : RespHeaders) (jsonBody : β) (textBody : String)
  | connectFailure
  | timeoutFailure

/-- The classified failures `_request` can raise. `valueErrorUncaught`
models the bare `ValueError` escaping from `int(...)` on line 94 when a 429
response carries a malformed `x-ratelimit-reset` header. -/
inductive ReqError where
  | authFailed
  | rateLimited
  | apiError (status : Nat) (body : String)
  | cannotConnect
  | timedOut
  | valueErrorUncaught
deriving DecidableEq

/-- `httpx.Response.raise_for_status` does not raise exactly on 2xx. -/
def isSuccess (s : Nat) : Bool := decide (200 ≤ s ∧ s < 300)

def MAX_RETRIES : Nat := 3

/-- The retry loop body of `T212Client._request`, starting at attempt index
`attempt` with `fuel` loop iterations left (`fuel = MAX_RETRIES - attempt`
at the top-level call, so the fuel-exhausted first case is unreachable: the
last iteration never continues). The transport is modelled by `attempts`,
giving the outcome of the `i`-th physical attempt. `.ok none` models the
`None` returned on a 204 response. -/
def requestAux (attempts : Nat → Outcome β) (url : String) :
    Nat → Nat → ClientState → Except ReqError (Option β) × ClientState
  | 0, _, st => (.error .rateLimited, st)
  | fuel + 1, attempt, st =>
    let st1 := waitForRateLimit url st
    match attempts attempt with
    | .response status h jb text =>
      let st2 := updateRateLimit url h st1
      if isSuccess status then
        if status = 204 then (.ok none, st2) else (.ok (some jb), st2)
      else
        let st3 := updateRateLimit url h st2
        if status = 401 then (.error .authFailed, st3)
        else if status = 429 then
          if attempt < MAX_RETRIES - 1 then
            match parseHeaderInt h.xRatelimitReset 0 with
            | none => (.error .valueErrorUncaught, st3)
            | some reset =>
              let wait : ℚ := max ((reset : ℚ) - st3.now) 1
              let sleepFor := min (wait + 1/2) 60
              let st4 := { st3 with totalWait := st3.totalWait + sleepFor,
                                    now := st3.now + sleepFor }
              requestAux attempts url fuel (attempt + 1) st4
          else (.error .rateLimited, st3)
        else (.error (.apiError status text), st3)
    | .connectFailure => (.error .cannotConnect, st1)
    | .timeoutFailure => (.error .timedOut, st1)

/-- `T212Client._request`: one logical request, up to `MAX_RETRIES` physical
attempts. -/
def request (attempts : Nat → Outcome β) (url : String) (st : ClientState) :
    Except ReqError (Option β) × ClientState :=
  requestAux attempts url MAX_RETRIES 0 st

/-! ### The paginator (`T212Client._paginate`) -/

/-- One page body as `_paginate` reads it: the `items` array (`[]` when the
field is missing) and the optional `nextPagePath` field. -/
structure PageResp (α : Type) where
  items : List α
  nextPagePath : Option String
deriving DecidableEq

/-- Python `if not next_path:` — falsy for a missing/`null` field and for
the empty string. -/
def pathFalsy : Option String → Bool
  | none => true
  | some s => s = ""

/-- The loop of `T212Client._paginate`, with the underlying `_request` calls
abstracted into the sequence `pages` of successive page bodies the server
returns. Also records the log of `(url, params)` pairs requested, in order.
Returns `none` when the supplied response chain is exhausted before a page
with a falsy `nextPagePath` arrives (an infinite pagination, outside this
finite model). -/
def paginateAux (pages : List (PageResp α)) (url : String)
    (params : List (String × String)) (acc : List α)
    (log : List (String × List (String × String))) :
    Option (List α × List (String × List (String × String))) :=
  match pages with
  | [] => none
  | page :: rest =>
    let acc' := acc ++ page.items
    let log' := log ++ [(url, params)]
    if pathFalsy page.nextPagePath then some (acc', log')
    else paginateAux rest (page.nextPagePath.getD "") [] acc' log'

/-- `T212Client._paginate` on a starting path and query parameters. -/
def paginate (pages : List (PageResp α)) (url : String)
    (params : List (String × String)) :
    Option (List α × List (String × List (String × String))) :=
  paginateAux pages url params [] []

/-! ### Domain data for the analytics tools -/

/-- The year and month of a `paid_on` timestamp (all that
`strftime("%Y-%m")` reads). -/
structure MonthDate where
  year : Nat
  month : Nat
deriving DecidableEq

/-- A dividend record as the analytics tools read it (`DividendItem`):
`ticker` and `amount` are required fields, `paid_on` is optional. -/
structure DividendItem where
  ticker : String
  amount : ℚ
  paidOn : Option MonthDate
deriving DecidableEq

/-- Zero-padded two-digit month, as `%m` formats it. -/
def pad2 (n : Nat) : String := if n < 10 then "0" ++ toString n else toString n

/-- `d.paid_on.strftime("%Y-%m")` (years are rendered unpadded, as on the
common four-digit case where all platforms agree). -/
def monthKey (d : MonthDate) : String := toString d.year ++ "-" ++ pad2 d.month

/-- `dict` assignment pattern `m[k] = m.get(k, 0) + v`: insertion-ordered
association list, adding `v` at an existing key, appending a new key. -/
def upsertQ : List (String × ℚ) → String → ℚ → List (String × ℚ)
  | [], k, v => [(k, v)]
  | (k', v') :: rest, k, v =>
    if k' = k then (k', v' + v) :: rest else (k', v') :: upsertQ rest k v

/-- Dictionary read `m.get(k, d)`. -/
def lookupQ : List (String × ℚ) → String → ℚ → ℚ
  | [], _, d => d
  | (k', v) :: rest, k, d => if k' = k then v else lookupQ rest k d

/-- One step of the `div_by_ticker` / `by_ticker` accumulation:
`t = d.ticker or "unknown"; m[t] = m.get(t, 0) + (d.amount or 0)`. -/
def tickerStep (m : List (String × ℚ)) (d : DividendItem) : List (String × ℚ) :=
  upsertQ m (pyStrOr d.ticker "unknown") (pyOr d.amount 0)

/-- The per-ticker dividend totals (`div_by_ticker` / `by_ticker`). -/
def divByTicker (divs : List DividendItem) : List (String × ℚ) :=
  divs.foldl tickerStep []

/-- One step of the `by_month` accumulation: only items with a truthy
`paid_on` contribute, keyed by `strftime("%Y-%m")`. -/
def monthStep (m : List (String × ℚ)) (d : DividendItem) : List (String × ℚ) :=
  match d.paidOn with
  | none => m
  | some dt => upsertQ m (monthKey dt) (pyOr d.amount 0)

/-- The per-month dividend totals (`by_month`). -/
def divByMonth (divs : List DividendItem) : List (String × ℚ) :=
  divs.foldl monthStep []

/-- Python tuple comparison `(k1, v1) <= (k2, v2)` used by
`sorted(by_month.items())`. -/
def tupleLe (a b : String × ℚ) : Prop := a.1 < b.1 ∨ (a.1 = b.1 ∧ a.2 ≤ b.2)

instance : DecidableRel tupleLe := fun a b => by
  unfold tupleLe; infer_instance

/-! ### Dividend summary (`fetch_dividend_summary`) -/

/-- One page of `client.fetch_dividends` as the summary tool reads it. -/
structure DivPage where
  items : List DividendItem
  nextPagePath : Option String

/-- `int(page.next_page_path.split("cursor=")[1].split("&")[0])`:
`none` models the caught `IndexError` (no `cursor=` occurrence) or
`ValueError` (non-integer value). -/
def extractCursor (s : String) : Option Int :=
  match splitStr "cursor=" s with
  | _ :: part :: _ => pyIntChars (part.toList.takeWhile (fun c => c ≠ '&'))
  | _ => none

/-- The `for _ in range(4)` paging loop of `fetch_dividend_summary`: collect
each page's items; stop when `next_page_path` is falsy or the cursor cannot
be parsed from it, else continue with the extracted cursor. `fetch c` is the
page the server returns for `fetch_dividends(cursor=c, limit=50)`. -/
def collectDivs (fetch : Option Int → DivPage) : Nat → Option Int → List DividendItem
  | 0, _ => []
  | n + 1, cursor =>
    let page := fetch cursor
    if pathFalsy page.nextPagePath then page.items
    else
      match extractCursor (page.nextPagePath.getD "") with
      | none => page.items
      | some c => page.items ++ collectDivs fetch n (some c)

structure DividendSummary where
  currency : String
  totalDividends : ℚ
  dividendCount : Nat
  averageMonthly : ℚ
  byTicker : List (String × ℚ)
  byMonth : List (String × ℚ)
deriving DecidableEq

/-- `fetch_dividend_summary`, with the account currency and the dividend
endpoint supplied as inputs. `by_ticker` entries are `(ticker, total)`
pairs, `by_month` entries `(month, total)` pairs. -/
def fetchDividendSummary (currencyCode : String) (fetch : Option Int → DivPage) :
    DividendSummary :=
  let allDivs := collectDivs fetch 4 none
  let bt := divByTicker allDivs
  let bm := divByMonth allDivs
  let tickerL := (List.insertionSort (fun a b : String × ℚ => b.2 ≤ a.2) bt).map
    (fun kv => (kv.1, round2 kv.2))
  let monthL := (List.insertionSort tupleLe bm).map (fun kv => (kv.1, round2 kv.2))
  let total := allDivs.foldl (fun a d => a + pyOr d.amount 0) 0
  let monthsSpan : Nat := if bm.length = 0 then 1 else bm.length
  { currency := currencyCode
    totalDividends := round2 total
    dividendCount := allDivs.length
    averageMonthly := round2 (total / (monthsSpan : ℚ))
    byTicker := tickerL
    byMonth := monthL }

/-! ### Portfolio summary (`fetch_portfolio_summary`) -/

/-- A position as the analytics tools read it: `ticker`, `quantity`,
`average_price`, `current_price` are required fields of the `Position`
model, `ppl` and `initial_fill_date` optional (the latter carried as its
already-formatted ISO string). -/
structure Position where
  ticker : String
  quantity : ℚ
  averagePrice : ℚ
  currentPrice : ℚ
  ppl : Option ℚ
  initialFillDate : Option String
deriving DecidableEq

/-- The cash balance fields `fetch_portfolio_summary` reads. -/
structure Cash where
  free : Option ℚ
  invested : Option ℚ
  total : Option ℚ
  ppl : Option ℚ
deriving DecidableEq

/-- One entry of the `holdings` list of `fetch_portfolio_summary`. -/
structure Holding where
  ticker : String
  quantity : ℚ
  averagePrice : ℚ
  currentPrice : ℚ
  currentValue : ℚ
  profitLoss : ℚ
  profitLossPct : ℚ
deriving DecidableEq

/-- The per-position dictionary built in the `for pos in positions` loop. -/
def mkHolding (pos : Position) : Holding :=
  let currentValue := pyOr pos.currentPrice 0 * pyOr pos.quantity 0
  { ticker := pos.ticker
    quantity := pos.quantity
    averagePrice := pos.averagePrice
    currentPrice := pos.currentPrice
    currentValue := round2 currentValue
    profitLoss := round2 (optOr pos.ppl 0)
    profitLossPct :=
      if pos.averagePrice ≠ 0 ∧ pos.quantity ≠ 0 then
        round2 (optOr pos.ppl 0 / (pyOr pos.averagePrice 1 * pyOr pos.quantity 1) * 100)
      else 0 }

/-- `holdings.sort(key=lambda h: h["current_value"], reverse=True)`:
a stable sort, descending by current value. -/
def sortHoldings (hs : List Holding) : List Holding :=
  List.insertionSort (fun a b => b.currentValue ≤ a.currentValue) hs

structure PortfolioSummary where
  currency : String
  totalValue : ℚ
  cashAvailable : ℚ
  invested : ℚ
  profitLoss : ℚ
  profitLossPct : ℚ
  positionCount : Nat
  positions : List Holding
  topHoldings : List Holding
deriving DecidableEq

/-- `fetch_portfolio_summary`, with the three fetched inputs supplied. -/
def fetchPortfolioSummary (currencyCode : String) (cash : Cash)
    (positions : List Position) : PortfolioSummary :=
  let holdings := sortHoldings (positions.map mkHolding)
  let total := optOr cash.total 0
  let invested := optOr cash.invested 0
  let ppl := optOr cash.ppl 0
  { currency := currencyCode
    totalValue := round2 total
    cashAvailable := round2 (optOr cash.free 0)
    invested := round2 invested
    profitLoss := round2 ppl
    profitLossPct := if invested ≠ 0 then round2 (ppl / invested * 100) else 0
    positionCount := positions.length
    positions := holdings
    topHoldings := holdings.take 5 }

/-! ### Portfolio performance (`fetch_portfolio_performance`) -/

/-- A historical order as `fetch_portfolio_performance` reads it (enum
values carried as their strings, dates as formatted strings). -/
structure HistOrder where
  ticker : Option String
  otype : Option String
  status : Option String
  filledQuantity : Option ℚ
  fillPrice : Option ℚ
  dateExecuted : Option String
deriving DecidableEq

/-- One entry of the `recent_filled_orders` list. -/
structure FilledOrder where
  ticker : Option String
  otype : Option String
  quantity : Option ℚ
  fillPrice : Option ℚ
  date : Option String
  status : Option String
deriving DecidableEq

/-- One entry of the `perf` list of `fetch_portfolio_performance`. -/
structure PerfEntry where
  ticker : String
  quantity : ℚ
  invested : ℚ
  currentValue : ℚ
  pricePpl : ℚ
  dividends : ℚ
  totalReturn : ℚ
  returnPct : ℚ
  heldSince : Option String
deriving DecidableEq

/-- The per-position dictionary built in the `for pos in positions` loop of
`fetch_portfolio_performance`, given the per-ticker dividend totals. -/
def mkPerfEntry (dbt : List (String × ℚ)) (pos : Position) : PerfEntry :=
  let ticker := pyStrOr pos.ticker ""
  let invested := pyOr pos.averagePrice 0 * pyOr pos.quantity 0
  let current := pyOr pos.currentPrice 0 * pyOr pos.quantity 0
  let ppl := optOr pos.ppl 0
  let divs := round2 (lookupQ dbt ticker 0)
  let totalReturn := round2 (ppl + divs)
  { ticker := ticker
    quantity := pos.quantity
    invested := round2 invested
    currentValue := round2 current
    pricePpl := round2 ppl
    dividends := divs
    totalReturn := totalReturn
    returnPct := if invested ≠ 0 then round2 (totalReturn / invested * 100) else 0
    heldSince := pos.initialFillDate }

/-- The `recent_filled_orders` list: keep orders whose status is `FILLED`,
project the shown fields, truncate to 20. -/
def filledOrders (orders : List HistOrder) : List FilledOrder :=
  ((orders.filter (fun o => o.status = some "FILLED")).map (fun o =>
    { ticker := o.ticker, otype := o.otype, quantity := o.filledQuantity,
      fillPrice := o.fillPrice, date := o.dateExecuted, status := o.status })).take 20

structure PortfolioPerformance where
  currency : String
  totalPricePpl : ℚ
  totalDividends : ℚ
  totalReturn : ℚ
  bestPerformer : Option PerfEntry
  worstPerformer : Option PerfEntry
  positions : List PerfEntry
  recentFilledOrders : List FilledOrder
deriving DecidableEq

/-- `fetch_portfolio_performance`, with the four fetched inputs supplied
(`divItems` is the `items` list of the fetched dividends page). -/
def fetchPortfolioPerformance (currencyCode : String) (positions : List Position)
    (orders : List HistOrder) (divItems : List DividendItem) : PortfolioPerformance :=
  let dbt := divByTicker divItems
  let totalDividends := (dbt.map (fun kv => kv.2)).foldl (· + ·) 0
  let perf := List.insertionSort (fun a b : PerfEntry => b.totalReturn ≤ a.totalReturn)
    (positions.map (mkPerfEntry dbt))
  { currency := currencyCode
    totalPricePpl := round2 ((perf.map (fun p => p.pricePpl)).foldl (· + ·) 0)
    totalDividends := round2 totalDividends
    totalReturn := round2 ((perf.map (fun p => p.totalReturn)).foldl (· + ·) 0)
    bestPerformer := perf.head?
    worstPerformer := perf.getLast?
    positions := perf
    recentFilledOrders := filledOrders orders }

/-! ### Pie request serialization (`create_pie` / `update_pie`) -/

/-- A JSON value as far as a dumped `PieRequest` needs: `dict` is the dump
of the `instrument_shares` mapping. -/
inductive JVal where
  | null
  | str (s : String)
  | num (q : ℚ)
  | dict (fields : List (String × ℚ))
deriving DecidableEq

/-- The `PieRequest` model: every field optional, `None` by default. The
datetime field is carried as its already-JSON-formatted string. -/
structure PieRequest where
  name : Option String
  instrumentShares : Option (List (String × ℚ))
  dividendCashAction : Option String
  goal : Option ℚ
  icon : Option String
  endDate : Option String
deriving DecidableEq

def jStr : Option String → JVal
  | none => .null
  | some s => .str s

def jNum : Option ℚ → JVal
  | none => .null
  | some q => .num q

def jDict : Option (List (String × ℚ)) → JVal
  | none => .null
  | some d => .dict d

/-- `pie_data.model_dump(mode="json", by_alias=True)`: all six fields in
declaration order, camelCase keys, `null` for `None`. -/
def pieDump (r : PieRequest) : List (String × JVal) :=
  [("name", jStr r.name),
   ("instrumentShares", jDict r.instrumentShares),
   ("dividendCashAction", jStr r.dividendCashAction),
   ("goal", jNum r.goal),
   ("icon", jStr r.icon),
   ("endDate", jStr r.endDate)]

/-- The JSON body `T212Client.create_pie` sends: the full dump as-is. -/
def createPieBody (r : PieRequest) : List (String × JVal) := pieDump r

/-- The JSON body `T212Client.update_pie` sends:
`{k: v for k, v in dump.items() if v is not None}`. -/
def updatePieBody (r : PieRequest) : List (String × JVal) :=
  (pieDump r).filter (fun kv => kv.2 ≠ JVal.null)

/-! ### Concrete inputs used by witnesses and counterexamples -/

/-- A transport whose first attempt is a 429 carrying a malformed
`x-ratelimit-reset` header, and whose later attempts would succeed. -/
def attemptsBadReset : Nat → Outcome Unit := fun i =>
  if i = 0 then .response 429 ⟨some "0", some "oops"⟩ () "rate limited"
  else .response 200 ⟨none, none⟩ () "ok"

/-- A transport answering 429 (with a well-formed reset header) forever. -/
def attemptsAll429 : Nat → Outcome Unit := fun _ =>
  .response 429 ⟨some "0", some "5"⟩ () "rate limited"

/-- The initial client state: empty tracker, zero accumulator, clock at 0. -/
def st0 : ClientState := ⟨[], 0, 0⟩

/-- The one-page dividend endpoint of the spec's worked example. -/
def exampleFetch : Option Int → DivPage := fun _ =>
  ⟨[⟨"AAPL", 10, some ⟨2024, 1⟩⟩, ⟨"AAPL", 5, some ⟨2024, 2⟩⟩], none⟩

/-- The position of the spec's portfolio-summary worked example. -/
def posX : Position := ⟨"X", 2, 10, 15, some 10, none⟩

/-- The cash balance of the spec's portfolio-summary worked example. -/
def cashX : Cash := ⟨some 0, some 20, some 30, some 10⟩

/-- The pie request `{name: "A", goal: None}` of the spec's worked example. -/
def pieA : PieRequest := ⟨some "A", none, none, none, none, none⟩

/-! ### Helper lemmas -/

theorem pyOr_zero (x : ℚ) : pyOr x 0 = x := by
  unfold pyOr; split <;> simp_all

theorem pyOr_of_ne (x d : ℚ) (h : x ≠ 0) : pyOr x d = x := by
  unfold pyOr; simp [h]

theorem updateRateLimit_totalWait (url : String) (h : RespHeaders) (st : ClientState) :
    (updateRateLimit url h st).totalWait = st.totalWait := by
  unfold updateRateLimit
  cases parseHeaderInt h.xRatelimitRemaining 1 <;>
    cases parseHeaderInt h.xRatelimitReset 0 <;> rfl

theorem updateRateLimit_now (url : String) (h : RespHeaders) (st : ClientState) :
    (updateRateLimit url h st).now = st.now := by
  unfold updateRateLimit
  cases parseHeaderInt h.xRatelimitRemaining 1 <;>
    cases parseHeaderInt h.xRatelimitReset 0 <;> rfl

theorem lookupRL_setRL_self (m : List (String × RateLimitInfo)) (k : String)
    (v : RateLimitInfo) : lookupRL (setRL m k v) k = some v := by
  induction m with
  | nil => simp [setRL, lookupRL]
  | cons kv rest ih =>
    obtain ⟨k', v'⟩ := kv
    by_cases hk : k' = k <;> simp [setRL, lookupRL, hk, ih]

theorem ratFloor_eq (q : ℚ) : ratFloor q = ⌊q⌋ := by
  rw [Rat.floor_def, ratFloor, Int.fdiv_eq_ediv _ (by positivity)]

theorem roundHalfEven_le (q : ℚ) : roundHalfEven q ≤ ⌊q⌋ + 1 := by
  simp only [roundHalfEven, ratFloor_eq]
  split_ifs <;> omega

theorem le_roundHalfEven (q : ℚ) : ⌊q⌋ ≤ roundHalfEven q := by
  simp only [roundHalfEven, ratFloor_eq]
  split_ifs <;> omega

theorem roundHalfEven_mono {p q : ℚ} (hpq : p ≤ q) :
    roundHalfEven p ≤ roundHalfEven q := by
  rcases lt_or_eq_of_le (Int.floor_le_floor hpq) with hf | hf
  · calc roundHalfEven p ≤ ⌊p⌋ + 1 := roundHalfEven_le p
      _ ≤ ⌊q⌋ := by omega
      _ ≤ roundHalfEven q := le_roundHalfEven q
  · simp only [roundHalfEven, ratFloor_eq, hf]
    have hr : p - (⌊q⌋ : ℚ) ≤ q - (⌊q⌋ : ℚ) := by linarith
    split_ifs <;> first | omega | linarith

theorem round2_mono {p q : ℚ} (hpq : p ≤ q) : round2 p ≤ round2 q := by
  unfold round2
  have h : roundHalfEven (100 * p) ≤ roundHalfEven (100 * q) :=
    roundHalfEven_mono (by linarith)
  have : (roundHalfEven (100 * p) : ℚ) ≤ (roundHalfEven (100 * q) : ℚ) := by
    exact_mod_cast h
  linarith

theorem round2_zero : round2 0 = 0 := by
  simp [round2, roundHalfEven, ratFloor]

/-- Stable descending sort by a rational key is pairwise-descending. -/
theorem pairwise_sort_desc {α : Type} (key : α → ℚ) (l : List α) :
    (List.insertionSort (fun a b => key b ≤ key a) l).Pairwise
      (fun a b => key b ≤ key a) := by
  haveI : IsTotal α (fun a b => key b ≤ key a) := ⟨fun a b => le_total (key b) (key a)⟩
  haveI : IsTrans α (fun a b => key b ≤ key a) := ⟨fun _ _ _ hab hbc => le_trans hbc hab⟩
  exact List.sorted_insertionSort _ l

theorem tupleLe_total : ∀ a b : String × ℚ, tupleLe a b ∨ tupleLe b a := by
  intro a b
  rcases lt_trichotomy a.1 b.1 with h | h | h
  · exact Or.inl (Or.inl h)
  · rcases le_total a.2 b.2 with h2 | h2
    · exact Or.inl (Or.inr ⟨h, h2⟩)
    · exact Or.inr (Or.inr ⟨h.symm, h2⟩)
  · exact Or.inr (Or.inl h)

theorem tupleLe_trans : ∀ a b c : String × ℚ,
    tupleLe a b → tupleLe b c → tupleLe a c := by
  intro a b c hab hbc
  rcases hab with h | ⟨he, hv⟩ <;> rcases hbc with h' | ⟨he', hv'⟩
  · exact Or.inl (lt_trans h h')
  · exact Or.inl (he' ▸ h)
  · exact Or.inl (he ▸ h')
  · exact Or.inr ⟨he.trans he', le_trans hv hv'⟩

theorem pairwise_sort_tupleLe (l : List (String × ℚ)) :
    (List.insertionSort tupleLe l).Pairwise tupleLe := by
  haveI : IsTotal (String × ℚ) tupleLe := ⟨tupleLe_total⟩
  haveI : IsTrans (String × ℚ) tupleLe := ⟨tupleLe_trans⟩
  exact List.sorted_insertionSort _ l

/-! ### Step lemmas for the request executor -/

theorem requestAux_success (attempts : Nat → Outcome β) (url : String) (fuel attempt : Nat)
    (st : ClientState) (status : Nat) (h : RespHeaders) (jb : β) (text : String)
    (ha : attempts attempt = .response status h jb text)
    (hs : isSuccess status = true) (h204 : status ≠ 204) :
    requestAux attempts url (fuel + 1) attempt st =
      (.ok (some jb), updateRateLimit url h (waitForRateLimit url st)) := by
  unfold requestAux
  rw [ha]
  simp [hs, h204]

theorem requestAux_401 (attempts : Nat → Outcome β) (url : String) (fuel attempt : Nat)
    (st : ClientState) (h : RespHeaders) (jb : β) (text : String)
    (ha : attempts attempt = .response 401 h jb text) :
    requestAux attempts url (fuel + 1) attempt st =
      (.error .authFailed,
       updateRateLimit url h (updateRateLimit url h (waitForRateLimit url st))) := by
  unfold requestAux
  rw [ha]
  simp [isSuccess]

theorem requestAux_other (attempts : Nat → Outcome β) (url : String) (fuel attempt : Nat)
    (st : ClientState) (status : Nat) (h : RespHeaders) (jb : β) (text : String)
    (ha : attempts attempt = .response status h jb text)
    (hs : isSuccess status = false) (h401 : status ≠ 401) (h429 : status ≠ 429) :
    requestAux attempts url (fuel + 1) attempt st =
      (.error (.apiError status text),
       updateRateLimit url h (updateRateLimit url h (waitForRateLimit url st))) := by
  unfold requestAux
  rw [ha]
  simp [hs, h401, h429]

theorem requestAux_connect (attempts : Nat → Outcome β) (url : String) (fuel attempt : Nat)
    (st : ClientState) (ha : attempts attempt = .connectFailure) :
    requestAux attempts url (fuel + 1) attempt st =
      (.error .cannotConnect, waitForRateLimit url st) := by
  unfold requestAux
  rw [ha]

theorem requestAux_timeout (attempts : Nat → Outcome β) (url : String) (fuel attempt : Nat)
    (st : ClientState) (ha : attempts attempt = .timeoutFailure) :
    requestAux attempts url (fuel + 1) attempt st =
      (.error .timedOut, waitForRateLimit url st) := by
  unfold requestAux
  rw [ha]

theorem requestAux_429_exhausted (attempts : Nat → Outcome β) (url : String)
    (fuel attempt : Nat) (st : ClientState) (h : RespHeaders) (jb : β) (text : String)
    (ha : attempts attempt = .response 429 h jb text)
    (hge : ¬ attempt < MAX_RETRIES - 1) :
    requestAux attempts url (fuel + 1) attempt st =
      (.error .rateLimited,
       updateRateLimit url h (updateRateLimit url h (waitForRateLimit url st))) := by
  unfold requestAux
  rw [ha]
  simp [isSuccess, hge]

theorem requestAux_429_badReset (attempts : Nat → Outcome β) (url : String)
    (fuel attempt : Nat) (st : ClientState) (h : RespHeaders) (jb : β) (text : String)
    (ha : attempts attempt = .response 429 h jb text)
    (hlt : attempt < MAX_RETRIES - 1)
    (hp : parseHeaderInt h.xRatelimitReset 0 = none) :
    requestAux attempts url (fuel + 1) attempt st =
      (.error .valueErrorUncaught,
       updateRateLimit url h (updateRateLimit url h (waitForRateLimit url st))) := by
  unfold requestAux
  rw [ha]
  simp [isSuccess, hlt, hp]

theorem requestAux_429_retry (attempts : Nat → Outcome β) (url : String) (fuel attempt : Nat)
    (st : ClientState) (h : RespHeaders) (jb : β) (text : String) (reset : Int)
    (ha : attempts attempt = .response 429 h jb text)
    (hlt : attempt < MAX_RETRIES - 1)
    (hp : parseHeaderInt h.xRatelimitReset 0 = some reset) :
    requestAux attempts url (fuel + 1) attempt st =
      requestAux attempts url fuel (attempt + 1)
        (let st3 := updateRateLimit url h (updateRateLimit url h (waitForRateLimit url st))
         let s : ℚ := min (max ((reset : ℚ) - st3.now) 1 + 1/2) 60
         { st3 with totalWait := st3.totalWait + s, now := st3.now + s }) := by
  conv_lhs => unfold requestAux
  simp [ha, isSuccess, hlt, hp]

/-- The executor only ever consults the transport at the attempt indices
its retry loop can reach. -/
theorem requestAux_congr (attempts attempts' : Nat → Outcome β) (url : String) :
    ∀ (fuel attempt : Nat) (st : ClientState),
      (∀ i, attempt ≤ i → i < attempt + fuel → attempts i = attempts' i) →
      requestAux attempts url fuel attempt st =
        requestAux attempts' url fuel attempt st := by
  intro fuel
  induction fuel with
  | zero => intro attempt st _; rfl
  | succ n ih =>
    intro attempt st hag
    have h0 : attempts attempt = attempts' attempt :=
      hag attempt le_rfl (by omega)
    unfold requestAux
    rw [← h0]
    cases hout : attempts attempt with
    | response status h jb text =>
      by_cases hs : isSuccess status = true
      · simp [hs]
      · simp only [Bool.not_eq_true] at hs
        simp only [hs, Bool.false_eq_true, if_false]
        by_cases h401 : status = 401
        · simp [h401]
        · by_cases h429 : status = 429
          · by_cases hlt : attempt < MAX_RETRIES - 1
            · cases hp : parseHeaderInt h.xRatelimitReset 0 with
              | none => simp [h401, h429, hlt, hp]
              | some reset =>
                simp only [h401, h429, hlt, hp, if_false, if_true]
                exact ih (attempt + 1) _ (fun i hi1 hi2 => hag i (by omega) (by omega))
            · simp [h401, h429, hlt]
          · simp [h401, h429]
    | connectFailure => rfl
    | timeoutFailure => rfl

theorem takeWhile_append_stop (p : Char → Bool) :
    ∀ (l₁ : List Char) (c : Char) (l₂ : List Char),
      (∀ x ∈ l₁, p x = true) → p c = false →
      (l₁ ++ c :: l₂).takeWhile p = l₁ := by
  intro l₁ c l₂ hall hc
  induction l₁ with
  | nil => simp [List.takeWhile, hc]
  | cons a as ih =>
    have ha : p a = true := hall a (List.mem_cons_self a as)
    simp only [List.cons_append, List.takeWhile_cons, ha, if_true]
    rw [ih (fun x hx => hall x (List.mem_cons_of_mem a hx))]

theorem takeWhile_all (p : Char → Bool) :
    ∀ l : List Char, (∀ x ∈ l, p x = true) → l.takeWhile p = l := by
  intro l hall
  induction l with
  | nil => rfl
  | cons a as ih =>
    have ha : p a = true := hall a (List.mem_cons_self a as)
    simp only [List.takeWhile_cons, ha, if_true]
    rw [ih (fun x hx => hall x (List.mem_cons_of_mem a hx))]

theorem endpointKey_strip (path q : String) (h : '?' ∉ path.toList) :
    endpointKey (path ++ "?" ++ q) = path := by
  unfold endpointKey
  have hdata : (path ++ "?" ++ q).toList = path.toList ++ '?' :: q.toList := by
    simp [String.toList, String.data_append]
  rw [hdata, takeWhile_append_stop _ _ _ _
    (fun x hx => by
      simp only [decide_eq_true_eq]
      intro he
      exact h (he ▸ hx)) (by simp)]
  cases path
  rfl

theorem endpointKey_id (path : String) (h : '?' ∉ path.toList) :
    endpointKey path = path := by
  unfold endpointKey
  rw [takeWhile_all _ _ (fun x hx => by
    simp only [decide_eq_true_eq]
    intro he
    exact h (he ▸ hx))]
  cases path
  rfl

/-! ### The claims -/

/-- C3: the pre-send throttle `_wait_for_rate_limit`, called with the
request path (keyed by the path stripped of its query string), returns the
state unchanged when no entry is tracked, when the tracked remaining quota
is positive, or when `reset - now ≤ 0`; otherwise it sleeps exactly
`min((reset - now) + 0.5, 60)` seconds and adds that same amount to the
cumulative wait accumulator. It never rejects: it only delays, and never
touches the tracked limits themselves. -/
theorem C3_pre_send_throttle (url : String) (st : ClientState) :
    (waitForRateLimit url st).rateLimits = st.rateLimits ∧
    (lookupRL st.rateLimits (endpointKey url) = none → waitForRateLimit url st = st) ∧
    (∀ info, lookupRL st.rateLimits (endpointKey url) = some info →
      (0 < info.remaining → waitForRateLimit url st = st) ∧
      (info.remaining ≤ 0 → (info.reset : ℚ) - st.now ≤ 0 → waitForRateLimit url st = st) ∧
      (info.remaining ≤ 0 → 0 < (info.reset : ℚ) - st.now →
        waitForRateLimit url st =
          { st with
              totalWait := st.totalWait + min ((info.reset : ℚ) - st.now + 1/2) 60,
              now := st.now + min ((info.reset : ℚ) - st.now + 1/2) 60 })) ∧
    (∀ path q : String, '?' ∉ path.toList →
      endpointKey (path ++ "?" ++ q) = path ∧ endpointKey path = path) := by
  refine ⟨?_, ?_, ?_, ?_⟩
  · unfold waitForRateLimit
    cases h : lookupRL st.rateLimits (endpointKey url) with
    | none => rfl
    | some info =>
      dsimp only
      split_ifs <;> rfl
  · intro h
    unfold waitForRateLimit
    rw [h]
  · intro info h
    refine ⟨?_, ?_, ?_⟩
    · intro hpos
      simp only [waitForRateLimit, h]
      split_ifs with h1 h2 <;> first | rfl | omega
    · intro hle hreset
      simp only [waitForRateLimit, h]
      split_ifs with h1 h2 <;> first | rfl | linarith
    · intro hle hreset
      simp only [waitForRateLimit, h]
      split_ifs with h1 h2 <;> first | rfl | omega | linarith
  · intro path q h
    exact ⟨endpointKey_strip path q h, endpointKey_id path h⟩

/-- C3 witness: a tracked entry with `remaining = 0` and `reset = 10` at
clock 0 makes the throttle sleep `min(10 + 0.5, 60) = 10.5` seconds. -/
theorem C3_witness :
    waitForRateLimit "/e" ⟨[("/e", ⟨0, 10⟩)], 0, 0⟩ =
      ⟨[("/e", ⟨0, 10⟩)], 21/2, 21/2⟩ := by
  have h := ((C3_pre_send_throttle "/e" ⟨[("/e", ⟨0, 10⟩)], 0, 0⟩).2.2.1 ⟨0, 10⟩
    (by decide)).2.2 (by norm_num) (by norm_num)
  rw [h]
  norm_num [min_def]

/-- C4 counterexample: with an unparseable `x-ratelimit-remaining` header
(`"bad"`) and a parseable reset (`"5"`), the update stores nothing at all —
it does not store the claimed default entry `{remaining: 1, reset: 5}`. -/
theorem C4_counterexample :
    updateRateLimit "/e" ⟨some "bad", some "5"⟩ st0 = st0 ∧
    lookupRL (updateRateLimit "/e" ⟨some "bad", some "5"⟩ st0).rateLimits "/e" ≠
      some ⟨1, 5⟩ := by
  constructor <;> decide

/-- C4 (amended): `_update_rate_limit` parses `x-ratelimit-remaining` with
default 1 and `x-ratelimit-reset` with default 0 when the header is absent;
when both parses succeed it stores `{remaining, reset}` under the endpoint
key; an unparseable header value aborts the whole update, leaving the state
for the key unchanged, and the failure is swallowed, never propagated. -/
theorem C4_update_from_headers (url : String) (h : RespHeaders) (st : ClientState) :
    (∀ rem rst, parseHeaderInt h.xRatelimitRemaining 1 = some rem →
      parseHeaderInt h.xRatelimitReset 0 = some rst →
      updateRateLimit url h st =
        { st with rateLimits := setRL st.rateLimits (endpointKey url) ⟨rem, rst⟩ }) ∧
    (parseHeaderInt h.xRatelimitRemaining 1 = none ∨
        parseHeaderInt h.xRatelimitReset 0 = none →
      updateRateLimit url h st = st) ∧
    (h.xRatelimitRemaining = none → parseHeaderInt h.xRatelimitRemaining 1 = some 1) ∧
    (h.xRatelimitReset = none → parseHeaderInt h.xRatelimitReset 0 = some 0) := by
  refine ⟨?_, ?_, ?_, ?_⟩
  · intro rem rst h1 h2
    unfold updateRateLimit
    rw [h1, h2]
  · intro hor
    unfold updateRateLimit
    rcases hor with h1 | h1
    · rw [h1]
    · rw [h1]
      cases parseHeaderInt h.xRatelimitRemaining 1 <;> rfl
  · intro hn; simp [parseHeaderInt, hn]
  · intro hn; simp [parseHeaderInt, hn]

/-- C4 witness: parseable headers `remaining="2", reset="7"` store the entry
`{2, 7}`; an unparseable remaining aborts the update. -/
theorem C4_witness :
    updateRateLimit "/e" ⟨some "2", some "7"⟩ st0 =
      { st0 with rateLimits := setRL st0.rateLimits (endpointKey "/e") ⟨2, 7⟩ } ∧
    updateRateLimit "/e" ⟨some "bad", some "7"⟩ st0 = st0 :=
  ⟨(C4_update_from_headers "/e" ⟨some "2", some "7"⟩ st0).1 2 7 (by decide) (by decide),
   (C4_update_from_headers "/e" ⟨some "bad", some "7"⟩ st0).2.1 (Or.inl (by decide))⟩

/-- Helper: with both headers parseable, the rate-limit update stores the
parsed entry, and a lookup at the endpoint key finds it. -/
theorem lookupRL_updateRateLimit (url : String) (h : RespHeaders) (st : ClientState)
    (rem rst : Int) (hrem : parseHeaderInt h.xRatelimitRemaining 1 = some rem)
    (hrst : parseHeaderInt h.xRatelimitReset 0 = some rst) :
    lookupRL (updateRateLimit url h st).rateLimits (endpointKey url) = some ⟨rem, rst⟩ := by
  unfold updateRateLimit
  rw [hrem, hrst]
  exact lookupRL_setRL_self _ _ _

/-- C1 counterexample: on a 429 whose `x-ratelimit-reset` header is the
malformed string `"oops"` with attempts remaining, the executor does not
sleep, does not update the tracker, and does not retry (the next attempt
would have succeeded): it dies at once with the uncaught `ValueError` from
`int(...)` on client.py line 94. -/
theorem C1_counterexample :
    (request attemptsBadReset "/e" st0).1 = Except.error ReqError.valueErrorUncaught ∧
    (request attemptsBadReset "/e" st0).2.totalWait = 0 ∧
    (request attemptsBadReset "/e" st0).2.rateLimits = [] := by
  refine ⟨rfl, by decide, by decide⟩

/-- C1 (amended): on an HTTP 429 response with attempts remaining and an
`x-ratelimit-reset` header that is absent (default 0) or a well-formed
integer, the executor updates the rate-limit tracker from the error
response headers, sleeps `min(max(resetAt - now, 1) + 0.5, 60)` seconds
adding that amount to the cumulative wait accumulator, and retries at the
next attempt index; a malformed reset header instead raises an uncaught
parse error with no sleep and no retry (see the counterexample). After the
3rd consecutive 429 the request fails with the rate-limited error, and the
result only ever depends on the first 3 physical attempts. -/
theorem C1_429_retry_loop (attempts : Nat → Outcome β) (url : String) :
    (∀ fuel attempt st h jb text reset,
      attempts attempt = .response 429 h jb text →
      attempt < MAX_RETRIES - 1 →
      parseHeaderInt h.xRatelimitReset 0 = some reset →
      requestAux attempts url (fuel + 1) attempt st =
        requestAux attempts url fuel (attempt + 1)
          (let st3 := updateRateLimit url h (updateRateLimit url h (waitForRateLimit url st))
           let s : ℚ := min (max ((reset : ℚ) - st3.now) 1 + 1/2) 60
           { st3 with totalWait := st3.totalWait + s, now := st3.now + s })) ∧
    (∀ st h0 h1 h2 jb0 jb1 jb2 t0 t1 t2 r0 r1 r2,
      attempts 0 = .response 429 h0 jb0 t0 →
      attempts 1 = .response 429 h1 jb1 t1 →
      attempts 2 = .response 429 h2 jb2 t2 →
      parseHeaderInt h0.xRatelimitReset 0 = some r0 →
      parseHeaderInt h1.xRatelimitReset 0 = some r1 →
      parseHeaderInt h2.xRatelimitReset 0 = some r2 →
      (request attempts url st).1 = Except.error ReqError.rateLimited) ∧
    (∀ (attempts' : Nat → Outcome β) st,
      (∀ i, i < MAX_RETRIES → attempts i = attempts' i) →
      request attempts url st = request attempts' url st) := by
  refine ⟨?_, ?_, ?_⟩
  · intro fuel attempt st h jb text reset ha hlt hp
    exact requestAux_429_retry attempts url fuel attempt st h jb text reset ha hlt hp
  · intro st h0 h1 h2 jb0 jb1 jb2 t0 t1 t2 r0 r1 r2 ha0 ha1 ha2 hp0 hp1 hp2
    show (requestAux attempts url (2 + 1) 0 st).1 = Except.error ReqError.rateLimited
    rw [requestAux_429_retry attempts url 2 0 st h0 jb0 t0 r0 ha0 (by decide) hp0]
    rw [requestAux_429_retry attempts url 1 1 _ h1 jb1 t1 r1 ha1 (by decide) hp1]
    rw [requestAux_429_exhausted attempts url 0 2 _ h2 jb2 t2 ha2 (by decide)]
  · intro attempts' st hag
    exact requestAux_congr attempts attempts' url MAX_RETRIES 0 st
      (fun i _ hi2 => hag i (by omega))

/-- C1 witness: three consecutive 429s with reset header `"5"` end in the
rate-limited failure. -/
theorem C1_witness :
    (request attemptsAll429 "/e" st0).1 = Except.error ReqError.rateLimited :=
  (C1_429_retry_loop attemptsAll429 "/e").2.1 st0
    ⟨some "0", some "5"⟩ ⟨some "0", some "5"⟩ ⟨some "0", some "5"⟩ () () ()
    "rate limited" "rate limited" "rate limited" 5 5 5
    rfl rfl rfl (by decide) (by decide) (by decide)

/-- C2: only 429 is ever retried. A 401 fails at once with the
authentication error, any other non-2xx, non-429, non-401 status fails at
once with the API error carrying the status and raw body, and a connect
failure or timeout fails at once with the corresponding error — in each
case no additional sleep happens beyond the pre-send throttle (the final
accumulator equals the accumulator after the throttle), and the result
does not depend on any later attempt. -/
theorem C2_terminal_failures (attempts : Nat → Outcome β) (url : String)
    (fuel attempt : Nat) (st : ClientState) :
    (∀ h jb text, attempts attempt = .response 401 h jb text →
      requestAux attempts url (fuel + 1) attempt st =
        (Except.error ReqError.authFailed,
         updateRateLimit url h (updateRateLimit url h (waitForRateLimit url st))) ∧
      (requestAux attempts url (fuel + 1) attempt st).2.totalWait =
        (waitForRateLimit url st).totalWait) ∧
    (∀ status h jb text, attempts attempt = .response status h jb text →
      isSuccess status = false → status ≠ 401 → status ≠ 429 →
      requestAux attempts url (fuel + 1) attempt st =
        (Except.error (ReqError.apiError status text),
         updateRateLimit url h (updateRateLimit url h (waitForRateLimit url st))) ∧
      (requestAux attempts url (fuel + 1) attempt st).2.totalWait =
        (waitForRateLimit url st).totalWait) ∧
    (attempts attempt = .connectFailure →
      requestAux attempts url (fuel + 1) attempt st =
        (Except.error ReqError.cannotConnect, waitForRateLimit url st)) ∧
    (attempts attempt = .timeoutFailure →
      requestAux attempts url (fuel + 1) attempt st =
        (Except.error ReqError.timedOut, waitForRateLimit url st)) ∧
    (∀ (attempts' : Nat → Outcome β), attempts' attempt = attempts attempt →
      requestAux attempts' url 1 attempt st = requestAux attempts url 1 attempt st) := by
  refine ⟨?_, ?_, ?_, ?_, ?_⟩
  · intro h jb text ha
    have he := requestAux_401 attempts url fuel attempt st h jb text ha
    refine ⟨he, ?_⟩
    rw [he]
    simp [updateRateLimit_totalWait]
  · intro status h jb text ha hs h401 h429
    have he := requestAux_other attempts url fuel attempt st status h jb text ha hs h401 h429
    refine ⟨he, ?_⟩
    rw [he]
    simp [updateRateLimit_totalWait]
  · exact requestAux_connect attempts url fuel attempt st
  · exact requestAux_timeout attempts url fuel attempt st
  · intro attempts' ha
    exact requestAux_congr attempts' attempts url 1 attempt st
      (fun i hi1 hi2 => by
        have : i = attempt := by omega
        rw [this, ha])

/-- C2 witness: a 401, a 500 and a connect failure at the first attempt
each fail immediately with the corresponding error and zero sleep. -/
theorem C2_witness :
    (request (fun _ => Outcome.response 401 ⟨none, none⟩ () "denied") "/e" st0).1 =
      Except.error ReqError.authFailed ∧
    (request (fun _ => Outcome.response 500 ⟨none, none⟩ () "boom") "/e" st0).1 =
      Except.error (ReqError.apiError 500 "boom") ∧
    (request (fun _ => (Outcome.connectFailure : Outcome Unit)) "/e" st0).2.totalWait = 0 := by
  refine ⟨?_, ?_, ?_⟩
  · have h := ((C2_terminal_failures
      (fun _ => Outcome.response 401 ⟨none, none⟩ () "denied") "/e" 2 0 st0).1
      ⟨none, none⟩ () "denied" rfl).1
    rw [show request (fun _ => Outcome.response 401 ⟨none, none⟩ () "denied") "/e" st0 =
      requestAux (fun _ => Outcome.response 401 ⟨none, none⟩ () "denied") "/e" (2 + 1) 0 st0
      from rfl, h]
  · have h := ((C2_terminal_failures
      (fun _ => Outcome.response 500 ⟨none, none⟩ () "boom") "/e" 2 0 st0).2.1
      500 ⟨none, none⟩ () "boom" rfl (by decide) (by decide) (by decide)).1
    rw [show request (fun _ => Outcome.response 500 ⟨none, none⟩ () "boom") "/e" st0 =
      requestAux (fun _ => Outcome.response 500 ⟨none, none⟩ () "boom") "/e" (2 + 1) 0 st0
      from rfl, h]
  · have h := (C2_terminal_failures
      (fun _ => (Outcome.connectFailure : Outcome Unit)) "/e" 2 0 st0).2.2.1 rfl
    rw [show request (fun _ => (Outcome.connectFailure : Outcome Unit)) "/e" st0 =
      requestAux (fun _ => (Outcome.connectFailure : Outcome Unit)) "/e" (2 + 1) 0 st0
      from rfl, h]
    decide

/-- C9: every attempt that receives an HTTP error-status response — 401 and
generic API errors included — refreshes the rate-limit entry for the
endpoint key from the error response's headers before the error is raised
(the final state holds the parsed entry) or before the retry (the state
passed to the next attempt holds the parsed entry). -/
theorem C9_error_updates_tracker (attempts : Nat → Outcome β) (url : String)
    (fuel attempt : Nat) (st : ClientState) (status : Nat) (h : RespHeaders)
    (jb : β) (text : String) (rem rst : Int)
    (ha : attempts attempt = .response status h jb text)
    (hs : isSuccess status = false)
    (hrem : parseHeaderInt h.xRatelimitRemaining 1 = some rem)
    (hrst : parseHeaderInt h.xRatelimitReset 0 = some rst) :
    (status ≠ 429 →
      lookupRL (requestAux attempts url (fuel + 1) attempt st).2.rateLimits
          (endpointKey url) = some ⟨rem, rst⟩ ∧
      ∃ e, (requestAux attempts url (fuel + 1) attempt st).1 = Except.error e) ∧
    (status = 429 → ¬ attempt < MAX_RETRIES - 1 →
      lookupRL (requestAux attempts url (fuel + 1) attempt st).2.rateLimits
          (endpointKey url) = some ⟨rem, rst⟩ ∧
      (requestAux attempts url (fuel + 1) attempt st).1 =
        Except.error ReqError.rateLimited) ∧
    (status = 429 → attempt < MAX_RETRIES - 1 →
      ∃ st', requestAux attempts url (fuel + 1) attempt st =
          requestAux attempts url fuel (attempt + 1) st' ∧
        lookupRL st'.rateLimits (endpointKey url) = some ⟨rem, rst⟩) := by
  refine ⟨?_, ?_, ?_⟩
  · intro h429
    by_cases h401 : status = 401
    · subst h401
      rw [requestAux_401 attempts url fuel attempt st h jb text ha]
      exact ⟨lookupRL_updateRateLimit url h _ rem rst hrem hrst, _, rfl⟩
    · rw [requestAux_other attempts url fuel attempt st status h jb text ha hs h401 h429]
      exact ⟨lookupRL_updateRateLimit url h _ rem rst hrem hrst, _, rfl⟩
  · intro h429 hge
    subst h429
    rw [requestAux_429_exhausted attempts url fuel attempt st h jb text ha hge]
    exact ⟨lookupRL_updateRateLimit url h _ rem rst hrem hrst, rfl⟩
  · intro h429 hlt
    subst h429
    refine ⟨_, requestAux_429_retry attempts url fuel attempt st h jb text rst ha hlt hrst, ?_⟩
    exact lookupRL_updateRateLimit url h _ rem rst hrem hrst

/-- C9 witness: a terminal 500 with parseable headers leaves the refreshed
entry `{remaining: 0, reset: 9}` behind together with the raised error. -/
theorem C9_witness :
    lookupRL (request (fun _ => Outcome.response 500 ⟨some "0", some "9"⟩ () "boom")
        "/e" st0).2.rateLimits (endpointKey "/e") = some ⟨0, 9⟩ ∧
    ∃ e, (request (fun _ => Outcome.response 500 ⟨some "0", some "9"⟩ () "boom")
        "/e" st0).1 = Except.error e :=
  (C9_error_updates_tracker (fun _ => Outcome.response 500 ⟨some "0", some "9"⟩ () "boom")
    "/e" 2 0 st0 500 ⟨some "0", some "9"⟩ () "boom" 0 9
    rfl (by decide) (by decide) (by decide)).1 (by decide)

/-- Helper: the paginator consumes the chain up to and including the first
page with a falsy `nextPagePath`, concatenating items and logging each
requested `(url, params)` pair. -/
theorem paginateAux_chain {α : Type} :
    ∀ (ps : List (PageResp α)) (q : PageResp α) (rest : List (PageResp α))
      (url : String) (params : List (String × String)) (acc : List α)
      (log : List (String × List (String × String))),
      (∀ p ∈ ps, pathFalsy p.nextPagePath = false) →
      pathFalsy q.nextPagePath = true →
      paginateAux (ps ++ q :: rest) url params acc log =
        some (acc ++ (ps.map (fun p => p.items)).join ++ q.items,
              log ++ (url, params) :: ps.map (fun p => (p.nextPagePath.getD "", []))) := by
  intro ps
  induction ps with
  | nil =>
    intro q rest url params acc log hall hq
    simp [paginateAux, hq]
  | cons p ps ih =>
    intro q rest url params acc log hall hq
    have hp : pathFalsy p.nextPagePath = false := hall p (by simp)
    simp only [List.cons_append, paginateAux, hp, Bool.false_eq_true, if_false,
      List.append_eq]
    rw [ih q rest _ _ _ _ (fun x hx => hall x (by simp [hx])) hq]
    simp

/-- C5: the paginator returns the concatenation of the pages' `items` in
page order, requests each continuation at exactly the `nextPagePath` value
with query parameters cleared, and stops at the first page whose
`nextPagePath` is absent, null or empty; on the spec's two-page example it
produces `[1, 2, 3]` after exactly 2 fetches. -/
theorem C5_paginator {α : Type} :
    (∀ (ps : List (PageResp α)) (q : PageResp α) (rest : List (PageResp α))
        (url : String) (params : List (String × String)),
      (∀ p ∈ ps, pathFalsy p.nextPagePath = false) →
      pathFalsy q.nextPagePath = true →
      paginate (ps ++ q :: rest) url params =
        some ((ps.map (fun p => p.items)).join ++ q.items,
              (url, params) :: ps.map (fun p => (p.nextPagePath.getD "", [])))) ∧
    paginate [(⟨[1, 2], some "/x?cursor=2"⟩ : PageResp Nat), ⟨[3], none⟩] "/start"
        [("a", "b")] =
      some ([1, 2, 3], [("/start", [("a", "b")]), ("/x?cursor=2", [])]) := by
  constructor
  · intro ps q rest url params hall hq
    unfold paginate
    rw [paginateAux_chain ps q rest url params [] [] hall hq]
    simp
  · decide

/-- C5 witness: the general chain statement applied to the spec's two-page
example. -/
theorem C5_witness :
    paginate [(⟨[1, 2], some "/x?cursor=2"⟩ : PageResp Nat), ⟨[3], none⟩] "/start"
        [("a", "b")] =
      some ([1, 2, 3], [("/start", [("a", "b")]), ("/x?cursor=2", [])]) := by
  have h := (C5_paginator (α := Nat)).1 [⟨[1, 2], some "/x?cursor=2"⟩] ⟨[3], none⟩ []
    "/start" [("a", "b")] (by decide) (by decide)
  simpa using h

/-- C8: the update-pie body keeps exactly the non-null fields of the dumped
request (a partial update), while the create-pie body is the full dump with
nulls kept; on the spec's example, updating `{name: "A"}` (all other fields
`None`) sends only the name, while creating sends all six keys, `goal`
included as null. -/
theorem C8_pie_bodies :
    (∀ r : PieRequest,
      updatePieBody r = (createPieBody r).filter (fun kv => kv.2 ≠ JVal.null) ∧
      createPieBody r = pieDump r ∧
      ∀ kv ∈ updatePieBody r, kv.2 ≠ JVal.null) ∧
    updatePieBody pieA = [("name", JVal.str "A")] ∧
    createPieBody pieA =
      [("name", JVal.str "A"), ("instrumentShares", JVal.null),
       ("dividendCashAction", JVal.null), ("goal", JVal.null),
       ("icon", JVal.null), ("endDate", JVal.null)] ∧
    ("goal", JVal.null) ∈ createPieBody pieA := by
  refine ⟨fun r => ⟨rfl, rfl, fun kv hkv => ?_⟩, by decide, by decide, by decide⟩
  have h := List.of_mem_filter hkv
  simpa using h

/-- C8 witness: the name field survives the update-body filter and is
non-null. -/
theorem C8_witness :
    ("name", JVal.str "A") ∈ updatePieBody pieA ∧
    ("name", JVal.str "A").2 ≠ JVal.null :=
  ⟨by decide, (C8_pie_bodies.1 pieA).2.2 ("name", JVal.str "A") (by decide)⟩

/-- C7: the portfolio summary computes per-position
`current_value = round2(currentPrice * quantity)` and
`profit_loss_pct = round2(ppl / (averagePrice * quantity) * 100)` (0 when
averagePrice or quantity is zero or the ppl is absent it uses 0), sorts the
holdings by current value descending, reports the first 5 as top holdings,
and computes the overall percentage as `round2(ppl / invested * 100)` (0
when invested is 0); the spec's one-position example evaluates exactly as
claimed, every monetary output a 2-decimal rounding. -/
theorem C7_portfolio_summary (currencyCode : String) (cash : Cash)
    (positions : List Position) :
    ((fetchPortfolioSummary currencyCode cash positions).positions.Pairwise
      (fun a b => b.currentValue ≤ a.currentValue)) ∧
    (fetchPortfolioSummary currencyCode cash positions).topHoldings =
      (fetchPortfolioSummary currencyCode cash positions).positions.take 5 ∧
    List.Perm (fetchPortfolioSummary currencyCode cash positions).positions
      (positions.map mkHolding) ∧
    (fetchPortfolioSummary currencyCode cash positions).profitLossPct =
      (if optOr cash.invested 0 ≠ 0 then
        round2 (optOr cash.ppl 0 / optOr cash.invested 0 * 100) else 0) ∧
    (∀ pos : Position,
      (mkHolding pos).currentValue = round2 (pos.currentPrice * pos.quantity) ∧
      (mkHolding pos).profitLossPct =
        (if pos.averagePrice ≠ 0 ∧ pos.quantity ≠ 0 then
          round2 (optOr pos.ppl 0 / (pos.averagePrice * pos.quantity) * 100) else 0)) ∧
    fetchPortfolioSummary "USD" cashX [posX] =
      ⟨"USD", 30, 0, 20, 10, 50, 1, [⟨"X", 2, 10, 15, 30, 10, 50⟩],
       [⟨"X", 2, 10, 15, 30, 10, 50⟩]⟩ := by
  refine ⟨?_, rfl, ?_, rfl, ?_, ?_⟩
  · exact pairwise_sort_desc (fun h : Holding => h.currentValue) _
  · exact List.perm_insertionSort _ _
  · intro pos
    constructor
    · simp [mkHolding, pyOr_zero]
    · by_cases hc : pos.averagePrice ≠ 0 ∧ pos.quantity ≠ 0
      · simp [mkHolding, hc, pyOr_of_ne _ _ hc.1, pyOr_of_ne _ _ hc.2]
      · simp [mkHolding, hc]
  · simp +decide [fetchPortfolioSummary, sortHoldings, mkHolding, posX, cashX, optOr, pyOr,
      List.insertionSort, List.orderedInsert, round2, roundHalfEven, ratFloor]
    norm_num

/-- C10: the performance report's best performer is the head and the worst
performer the last element of the positions sorted by total return
descending; on an empty position list both are `None` (no failure) with
zero totals and an empty positions list. -/
theorem C10_performance_best_worst (currencyCode : String) (positions : List Position)
    (orders : List HistOrder) (divItems : List DividendItem) :
    (fetchPortfolioPerformance currencyCode positions orders divItems).bestPerformer =
      (fetchPortfolioPerformance currencyCode positions orders divItems).positions.head? ∧
    (fetchPortfolioPerformance currencyCode positions orders divItems).worstPerformer =
      (fetchPortfolioPerformance currencyCode positions orders divItems).positions.getLast? ∧
    (fetchPortfolioPerformance currencyCode positions orders divItems).positions.Pairwise
      (fun a b => b.totalReturn ≤ a.totalReturn) ∧
    (fetchPortfolioPerformance currencyCode positions orders divItems).positions.length =
      positions.length ∧
    (positions = [] →
      (fetchPortfolioPerformance currencyCode positions orders divItems).bestPerformer =
          none ∧
      (fetchPortfolioPerformance currencyCode positions orders divItems).worstPerformer =
          none ∧
      (fetchPortfolioPerformance currencyCode positions orders divItems).totalPricePpl = 0 ∧
      (fetchPortfolioPerformance currencyCode positions orders divItems).totalReturn = 0 ∧
      (fetchPortfolioPerformance currencyCode positions orders divItems).positions = []) ∧
    (positions ≠ [] →
      (∃ b, (fetchPortfolioPerformance currencyCode positions orders divItems).bestPerformer
          = some b) ∧
      ∃ w, (fetchPortfolioPerformance currencyCode positions orders divItems).worstPerformer
          = some w) := by
  refine ⟨rfl, rfl, ?_, ?_, ?_, ?_⟩
  · exact pairwise_sort_desc (fun p : PerfEntry => p.totalReturn) _
  · simp [fetchPortfolioPerformance, List.length_insertionSort]
  · intro h
    subst h
    exact ⟨rfl, rfl, round2_zero, round2_zero, rfl⟩
  · intro h
    have hlen : (fetchPortfolioPerformance currencyCode positions orders divItems).positions.length = positions.length := by
      simp [fetchPortfolioPerformance, List.length_insertionSort]
    rcases hl : (fetchPortfolioPerformance currencyCode positions orders divItems).positions with _ | ⟨a, as⟩
    · rw [hl] at hlen
      simp only [List.length_nil] at hlen
      exact absurd (List.length_eq_zero.mp hlen.symm) h
    · constructor
      · refine ⟨a, ?_⟩
        rw [show (fetchPortfolioPerformance currencyCode positions orders divItems).bestPerformer = (fetchPortfolioPerformance currencyCode positions orders divItems).positions.head? from rfl, hl]
        rfl
      · refine ⟨(a :: as).getLast (by simp), ?_⟩
        rw [show (fetchPortfolioPerformance currencyCode positions orders divItems).worstPerformer = (fetchPortfolioPerformance currencyCode positions orders divItems).positions.getLast? from rfl, hl]
        exact List.getLast?_eq_getLast _ (by simp)

/-- C10 witness: the empty portfolio yields `None` performers and zero
totals. -/
theorem C10_witness :
    (fetchPortfolioPerformance "USD" [] [] []).bestPerformer = none ∧
    (fetchPortfolioPerformance "USD" [] [] []).worstPerformer = none ∧
    (fetchPortfolioPerformance "USD" [] [] []).totalPricePpl = 0 ∧
    (fetchPortfolioPerformance "USD" [] [] []).totalReturn = 0 ∧
    (fetchPortfolioPerformance "USD" [] [] []).positions = [] :=
  (C10_performance_best_worst "USD" [] [] []).2.2.2.2.1 rfl

theorem keys_upsertQ (m : List (String × ℚ)) (k : String) (v : ℚ) :
    (upsertQ m k v).map Prod.fst =
      if k ∈ m.map Prod.fst then m.map Prod.fst else m.map Prod.fst ++ [k] := by
  induction m with
  | nil => simp [upsertQ]
  | cons kv rest ih =>
    obtain ⟨k', v'⟩ := kv
    by_cases hk : k' = k
    · simp [upsertQ, hk]
    · simp only [upsertQ, hk, if_false, List.map_cons, ih]
      by_cases hm : k ∈ rest.map Prod.fst
      · simp [hm, hk, Ne.symm hk]
      · simp [hm, hk, Ne.symm hk]

theorem nodup_keys_upsertQ (m : List (String × ℚ)) (k : String) (v : ℚ)
    (h : (m.map Prod.fst).Nodup) : ((upsertQ m k v).map Prod.fst).Nodup := by
  rw [keys_upsertQ]
  split_ifs with hm
  · exact h
  · rw [List.nodup_append]
    exact ⟨h, List.nodup_singleton k, by simpa using hm⟩

theorem mem_keys_upsertQ (m : List (String × ℚ)) (k : String) (v : ℚ) (a : String) :
    a ∈ (upsertQ m k v).map Prod.fst ↔ a ∈ m.map Prod.fst ∨ a = k := by
  rw [keys_upsertQ]
  split_ifs with hm
  · constructor
    · exact Or.inl
    · rintro (h | rfl)
      · exact h
      · exact hm
  · simp [List.mem_append]

theorem nodup_keys_monthFold :
    ∀ (divs : List DividendItem) (acc : List (String × ℚ)),
      (acc.map Prod.fst).Nodup → ((divs.foldl monthStep acc).map Prod.fst).Nodup := by
  intro divs
  induction divs with
  | nil => intro acc h; simpa using h
  | cons d ds ih =>
    intro acc h
    simp only [List.foldl_cons]
    apply ih
    unfold monthStep
    cases d.paidOn with
    | none => exact h
    | some dt => exact nodup_keys_upsertQ _ _ _ h

theorem mem_keys_monthFold :
    ∀ (divs : List DividendItem) (acc : List (String × ℚ)) (a : String),
      a ∈ (divs.foldl monthStep acc).map Prod.fst ↔
        a ∈ acc.map Prod.fst ∨ ∃ d ∈ divs, ∃ dt, d.paidOn = some dt ∧ monthKey dt = a := by
  intro divs
  induction divs with
  | nil => intro acc a; simp
  | cons d ds ih =>
    intro acc a
    simp only [List.foldl_cons]
    rw [ih]
    cases hd : d.paidOn with
    | none =>
      simp only [monthStep, hd, List.mem_cons]
      constructor
      · rintro (h | ⟨d', hd', dt, hdt, hk⟩)
        · exact Or.inl h
        · exact Or.inr ⟨d', Or.inr hd', dt, hdt, hk⟩
      · rintro (h | ⟨d', rfl | hd', dt, hdt, hk⟩)
        · exact Or.inl h
        · rw [hd] at hdt; cases hdt
        · exact Or.inr ⟨d', hd', dt, hdt, hk⟩
    | some dt =>
      simp only [monthStep, hd, mem_keys_upsertQ, List.mem_cons]
      constructor
      · rintro ((h | rfl) | ⟨d', hd', dt', hdt', hk⟩)
        · exact Or.inl h
        · exact Or.inr ⟨d, Or.inl rfl, dt, hd, rfl⟩
        · exact Or.inr ⟨d', Or.inr hd', dt', hdt', hk⟩
      · rintro (h | ⟨d', rfl | hd', dt', hdt', hk⟩)
        · exact Or.inl (Or.inl h)
        · rw [hd] at hdt'
          cases hdt'
          exact Or.inl (Or.inr hk.symm)
        · exact Or.inr ⟨d', hd', dt', hdt', hk⟩

theorem collectDivs_le (fetch : Option Int → DivPage) :
    ∀ (n : Nat) (cursor : Option Int),
      (∀ c, (fetch c).items.length ≤ 50) →
      (collectDivs fetch n cursor).length ≤ n * 50 := by
  intro n
  induction n with
  | zero => intro cursor h; simp [collectDivs]
  | succ m ih =>
    intro cursor h
    simp only [collectDivs]
    split_ifs
    · calc (fetch cursor).items.length ≤ 50 := h cursor
        _ ≤ (m + 1) * 50 := by omega
    · cases extractCursor ((fetch cursor).nextPagePath.getD "") with
      | none =>
        calc (fetch cursor).items.length ≤ 50 := h cursor
          _ ≤ (m + 1) * 50 := by omega
      | some c =>
        simp only [List.length_append]
        have h1 := h cursor
        have h2 := ih (some c) h
        omega

theorem map_fst_round (l : List (String × ℚ)) :
    (l.map (fun kv => (kv.1, round2 kv.2))).map Prod.fst = l.map Prod.fst := by
  induction l with
  | nil => rfl
  | cons kv rest ih => simp [ih]

/-- C6: the dividend summary pages through at most 4 pages (at most 200
records when each page honours the 50 limit), continues with the integer
cursor extracted from the `cursor=` query value of `nextPagePath`, stops
early when `nextPagePath` is falsy or that value cannot be parsed, reports
per-ticker totals sorted by total descending and per-month totals with
distinct `"YYYY-MM"` keys — exactly the months of the dated collected
records — sorted by key ascending (the chronological order of the
`"YYYY-MM"` keys), and an average of the grand total over `max(#months, 1)`;
the spec's two-dividend example evaluates exactly as claimed. -/
theorem C6_dividend_summary (currencyCode : String) (fetch : Option Int → DivPage) :
    ((∀ c, (fetch c).items.length ≤ 50) →
      (fetchDividendSummary currencyCode fetch).dividendCount ≤ 200) ∧
    (pathFalsy (fetch none).nextPagePath = true →
      collectDivs fetch 4 none = (fetch none).items) ∧
    (pathFalsy (fetch none).nextPagePath = false →
      extractCursor ((fetch none).nextPagePath.getD "") = none →
      collectDivs fetch 4 none = (fetch none).items) ∧
    (∀ c', pathFalsy (fetch none).nextPagePath = false →
      extractCursor ((fetch none).nextPagePath.getD "") = some c' →
      collectDivs fetch 4 none = (fetch none).items ++ collectDivs fetch 3 (some c')) ∧
    (fetchDividendSummary currencyCode fetch).byTicker.Pairwise
      (fun a b => b.2 ≤ a.2) ∧
    (fetchDividendSummary currencyCode fetch).byMonth.Pairwise
      (fun a b => a.1 ≤ b.1) ∧
    ((fetchDividendSummary currencyCode fetch).byMonth.map Prod.fst).Nodup ∧
    (∀ a, a ∈ (fetchDividendSummary currencyCode fetch).byMonth.map Prod.fst ↔
      ∃ d ∈ collectDivs fetch 4 none, ∃ dt, d.paidOn = some dt ∧ monthKey dt = a) ∧
    (fetchDividendSummary currencyCode fetch).averageMonthly =
      round2 (((collectDivs fetch 4 none).foldl (fun a d => a + pyOr d.amount 0) 0) /
        ((max (fetchDividendSummary currencyCode fetch).byMonth.length 1 : ℕ) : ℚ)) ∧
    (fetchDividendSummary currencyCode fetch).totalDividends =
      round2 ((collectDivs fetch 4 none).foldl (fun a d => a + pyOr d.amount 0) 0) ∧
    (fetchDividendSummary currencyCode fetch).dividendCount =
      (collectDivs fetch 4 none).length ∧
    (fetchDividendSummary "USD" exampleFetch).byTicker = [("AAPL", 15)] ∧
    (fetchDividendSummary "USD" exampleFetch).byMonth =
      [("2024-01", 10), ("2024-02", 5)] ∧
    (fetchDividendSummary "USD" exampleFetch).averageMonthly = 15/2 ∧
    (fetchDividendSummary "USD" exampleFetch).totalDividends = 15 ∧
    (fetchDividendSummary "USD" exampleFetch).dividendCount = 2 := by
  have hkeys : (fetchDividendSummary currencyCode fetch).byMonth.map Prod.fst =
      (List.insertionSort tupleLe (divByMonth (collectDivs fetch 4 none))).map Prod.fst :=
    map_fst_round _
  have hperm : List.Perm
      ((List.insertionSort tupleLe (divByMonth (collectDivs fetch 4 none))).map Prod.fst)
      ((divByMonth (collectDivs fetch 4 none)).map Prod.fst) :=
    (List.perm_insertionSort tupleLe _).map Prod.fst
  refine ⟨?_, ?_, ?_, ?_, ?_, ?_, ?_, ?_, ?_, rfl, rfl, ?_, ?_, ?_, ?_, ?_⟩
  · intro h
    simpa using collectDivs_le fetch 4 none h
  · intro hf
    simp [collectDivs, hf]
  · intro hf he
    simp [collectDivs, hf, he]
  · intro c' hf he
    conv_lhs => rw [collectDivs]
    simp [hf, he]
  · exact List.Pairwise.map _ (fun a b h => round2_mono h)
      (pairwise_sort_desc (fun kv : String × ℚ => kv.2) _)
  · exact List.Pairwise.map _
      (fun a b h => h.elim le_of_lt (fun hh => le_of_eq hh.1))
      (pairwise_sort_tupleLe _)
  · rw [hkeys]
    exact hperm.nodup_iff.mpr (nodup_keys_monthFold _ [] (by simp))
  · intro a
    rw [hkeys, hperm.mem_iff]
    unfold divByMonth
    rw [mem_keys_monthFold]
    simp
  · have hlen : (fetchDividendSummary currencyCode fetch).byMonth.length =
        (divByMonth (collectDivs fetch 4 none)).length := by
      simp [fetchDividendSummary, List.length_map, List.length_insertionSort]
    rw [hlen]
    show round2 (_ / ((if (divByMonth (collectDivs fetch 4 none)).length = 0 then 1
      else (divByMonth (collectDivs fetch 4 none)).length : ℕ) : ℚ)) = _
    have hm : (if (divByMonth (collectDivs fetch 4 none)).length = 0 then 1
        else (divByMonth (collectDivs fetch 4 none)).length) =
        max (divByMonth (collectDivs fetch 4 none)).length 1 := by
      by_cases h0 : (divByMonth (collectDivs fetch 4 none)).length = 0 <;>
        simp [h0] <;> omega
    rw [hm]
  · simp +decide [fetchDividendSummary, collectDivs, exampleFetch, pathFalsy, divByTicker,
      divByMonth, tickerStep, monthStep, upsertQ, pyStrOr, pyOr, List.insertionSort,
      List.orderedInsert, round2, roundHalfEven, ratFloor, monthKey, pad2, tupleLe]
    norm_num
  · simp +decide [fetchDividendSummary, collectDivs, exampleFetch, pathFalsy, divByTicker,
      divByMonth, tickerStep, monthStep, upsertQ, pyStrOr, pyOr, List.insertionSort,
      List.orderedInsert, round2, roundHalfEven, ratFloor, monthKey, pad2, tupleLe]
    norm_num
  · simp +decide [fetchDividendSummary, collectDivs, exampleFetch, pathFalsy, divByTicker,
      divByMonth, tickerStep, monthStep, upsertQ, pyStrOr, pyOr, List.insertionSort,
      List.orderedInsert, round2, roundHalfEven, ratFloor, monthKey, pad2, tupleLe]
    norm_num
  · simp +decide [fetchDividendSummary, collectDivs, exampleFetch, pathFalsy, divByTicker,
      divByMonth, tickerStep, monthStep, upsertQ, pyStrOr, pyOr, List.insertionSort,
      List.orderedInsert, round2, roundHalfEven, ratFloor, monthKey, pad2, tupleLe]
    norm_num
  · simp +decide [fetchDividendSummary, collectDivs, exampleFetch, pathFalsy, divByTicker,
      divByMonth, tickerStep, monthStep, upsertQ, pyStrOr, pyOr, List.insertionSort,
      List.orderedInsert, round2, roundHalfEven, ratFloor, monthKey, pad2, tupleLe]

/-- C6 witness: the worked example honours the page limit and its outputs
satisfy the general statements. -/
theorem C6_witness :
    (fetchDividendSummary "USD" exampleFetch).dividendCount ≤ 200 ∧
    (fetchDividendSummary "USD" exampleFetch).byTicker.Pairwise (fun a b => b.2 ≤ a.2) :=
  ⟨(C6_dividend_summary "USD" exampleFetch).1 (fun c => by simp [exampleFetch]),
   (C6_dividend_summary "USD" exampleFetch).2.2.2.2.1⟩

end Trading212
